import Mathlib

/-!
Verification development for the CoolBox Hi-C matrix normalization pipeline
(`coolbox/core/track/hicmat/fetch.py`) and the loop/peak interval index
(`coolbox/core/coverage/hicpeaks.py`).

Matrices are embedded as a dimension pair together with a total entry
function into `ℚ`; only entries at indices below the dimensions are
meaningful.  numpy's floating-point arithmetic is modelled by exact
rational arithmetic.  Division in `ℚ` is total with `x / 0 = 0`; numpy
emits `nan`/`inf` with a warning instead of raising there, so the
raise/no-raise behaviour (the `Except` layer below) agrees with the code.
Python exceptions are modelled by `Except String`.
-/

/-- A 2-D numpy array of floats: explicit shape plus a total entry
function (entries outside the shape are irrelevant). -/
structure PyMat where
  rows : ℕ
  cols : ℕ
  entry : ℕ → ℕ → ℚ

/-- Resolution of one bound of a Python slice against an array of length
`len`: a negative index counts from the end, then the result is clamped
into `[0, len]`. -/
def resolveIdx (len : ℕ) (x : ℤ) : ℕ :=
  if x < 0 then (x + len).toNat else min x.toNat len

/-- Membership of index `i` in the Python slice `a:b` of an axis of
length `len`. -/
def inSlice (len : ℕ) (a b : ℤ) (i : ℕ) : Prop :=
  resolveIdx len a ≤ i ∧ i < resolveIdx len b

instance (len : ℕ) (a b : ℤ) (i : ℕ) : Decidable (inSlice len a b i) := by
  unfold inSlice; infer_instance

/-- Sum of all entries of a matrix, `np.sum(mat)` (fetch.py line 116). -/
def sumEntries (M : PyMat) : ℚ :=
  ((List.range M.rows).map (fun i =>
    ((List.range M.cols).map (fun j => M.entry i j)).sum)).sum

/-- Elementwise division of a matrix by a scalar, `mat / total`
(fetch.py line 118). -/
def scaleDiv (M : PyMat) (c : ℚ) : PyMat :=
  { rows := M.rows, cols := M.cols, entry := fun i j => M.entry i j / c }

/-- Elementwise matrix division; at every use site below the shapes of
the two operands agree, so no numpy broadcasting is needed. -/
def ewDiv (A B : PyMat) : PyMat :=
  { rows := A.rows, cols := A.cols, entry := fun i j => A.entry i j / B.entry i j }

/-- Elementwise matrix subtraction (shapes agree at every use site). -/
def ewSub (A B : PyMat) : PyMat :=
  { rows := A.rows, cols := A.cols, entry := fun i j => A.entry i j - B.entry i j }

/-- Elementwise matrix multiplication (shapes agree at every use site). -/
def ewMul (A B : PyMat) : PyMat :=
  { rows := A.rows, cols := A.cols, entry := fun i j => A.entry i j * B.entry i j }

/-- The entries of the `i`-th superdiagonal `np.diagonal(mat, i)` of a
square matrix (fetch.py lines 85 and 92). -/
def diagEntries (M : PyMat) (i : ℕ) : List ℚ :=
  (List.range (M.rows - i)).map (fun j => M.entry j (j + i))

/-- Model of `FetchHiC.diagonal_mean` (fetch.py lines 83-85): the mean of
each superdiagonal, for offsets `0 .. rows-1`. -/
def diagonal_mean (M : PyMat) : List ℚ :=
  (List.range M.rows).map (fun i =>
    (diagEntries M i).sum / ((diagEntries M i).length : ℚ))

/-- Population variance of the `i`-th diagonal: `np.std(diagonal) ** 2`.
`diagonal.std()` (fetch.py line 94) is the square root of this value;
the code only ever compares the stds with `0` and takes a minimum of the
positive ones, and `Real.sqrt` is strictly monotone with `sqrt 0 = 0`,
so the zero pattern, the positivity pattern and the argmin are identical
for the variance and the std.  We model the variance to stay inside the
computable field `ℚ` (an exact square root does not exist there). -/
def diagonalVar (M : PyMat) (i : ℕ) : ℚ :=
  ((diagEntries M i).map (fun x =>
    (x - (diagEntries M i).sum / ((diagEntries M i).length : ℚ)) ^ 2)).sum
    / ((diagEntries M i).length : ℚ)

/-- The list of per-diagonal variances (see `diagonalVar`). -/
def diagonalVars (M : PyMat) : List ℚ :=
  (List.range M.rows).map (diagonalVar M)

/-- Minimum of a nonempty list given as head and tail, the model of
`arr.min()` on a nonempty numpy array. -/
def listMinQ (h : ℚ) (t : List ℚ) : ℚ := t.foldl min h

/-- Model of `FetchHiC.diagonal_mean_std` (fetch.py lines 87-97), with
stds represented by variances (see `diagonalVar`).  The line
`stds[stds == 0] = stds[stds > 0].min()` evaluates its right-hand side
unconditionally; when no diagonal has positive spread the filtered array
is empty and `.min()` raises `ValueError`. -/
def diagonal_mean_std (M : PyMat) : Except String (List ℚ × List ℚ) :=
  match (diagonalVars M).filter (fun v => decide (0 < v)) with
  | [] => .error "ValueError: zero-size array to reduction operation minimum which has no identity"
  | h :: t =>
      .ok (diagonal_mean M,
           (diagonalVars M).map (fun v => if v = 0 then listMinQ h t else v))

/-- Model of `scipy.linalg.toeplitz(c)` for a real vector `c`: the
symmetric Toeplitz matrix with first column `c` and first row `c`
(the conjugate of a real vector is itself), so entry `(i, j)` is
`c[i-j]` when `j ≤ i` and `c[j-i]` otherwise. -/
def toeplitz (c : List ℚ) : PyMat :=
  { rows := c.length, cols := c.length,
    entry := fun i j => if j ≤ i then c.getD (i - j) 0 else c.getD (j - i) 0 }

/-- Model of `FetchHiC.__donut_kernel(p, w)` (fetch.py lines 99-110):
`k1` is `np.ones((2w+1, 2w+1))`; `k2` is zeros with the slice-square
`[w-p : w+p+1] × [w-p : w+p+1]` set to `1`; `k3` is zeros with the four
strips `[: w-p, w]`, `[w, : w-p]`, `[w, w+2p-1 : 2w+1]` and
`[w+2p-1 : 2w+1, w]` set to `1`; the kernel is `k1 - k2 - k3`.
`p` comes from Python `int()` and may be any integer; slice bounds follow
Python semantics (`inSlice`). -/
def donut_kernel (p : ℤ) (w : ℕ) : PyMat :=
  { rows := 2 * w + 1, cols := 2 * w + 1,
    entry := fun i j =>
      if i < 2 * w + 1 ∧ j < 2 * w + 1 then
        (1 : ℚ)
        - (if inSlice (2 * w + 1) ((w : ℤ) - p) ((w : ℤ) + p + 1) i ∧
              inSlice (2 * w + 1) ((w : ℤ) - p) ((w : ℤ) + p + 1) j then 1 else 0)
        - (if (inSlice (2 * w + 1) 0 ((w : ℤ) - p) i ∧ j = w) ∨
              (i = w ∧ inSlice (2 * w + 1) 0 ((w : ℤ) - p) j) ∨
              (i = w ∧ inSlice (2 * w + 1) ((w : ℤ) + 2 * p - 1) (2 * (w : ℤ) + 1) j) ∨
              (inSlice (2 * w + 1) ((w : ℤ) + 2 * p - 1) (2 * (w : ℤ) + 1) i ∧ j = w)
           then 1 else 0)
      else 0 }

/-- Side length of `m_ext = np.zeros((m.shape[0] + 2*(w-1), m.shape[0] + 2*(w-1)))`
(fetch.py line 134), as the (clamped) natural number value of the Python
integer `m.shape[0] + 2*(w-1)`. -/
def extLen (w : ℕ) (M : PyMat) : ℕ :=
  ((M.rows : ℤ) + 2 * ((w : ℤ) - 1)).toNat

/-- The extended matrix after the slice assignment
`m_ext[idx_center] = m` with `idx_center = slice(w, w + m.shape[0]), slice(w, w + m.shape[1])`
(fetch.py lines 135-136): zeros outside, the entries of `M` shifted by
`w` inside the assigned region (clipped to the array). -/
def donutExtMat (w : ℕ) (M : PyMat) : PyMat :=
  { rows := extLen w M, cols := extLen w M,
    entry := fun i j =>
      if w ≤ i ∧ i < min (w + M.rows) (extLen w M) ∧
         w ≤ j ∧ j < min (w + M.cols) (extLen w M) then
        M.entry (i - w) (j - w)
      else 0 }

/-- Construction of `m_ext` (fetch.py lines 134-136) with numpy's error
behaviour: `np.zeros` rejects a negative dimension, and the slice
assignment raises `ValueError` unless the (clipped) target region has
exactly the shape of `M`. -/
def donutExt (w : ℕ) (M : PyMat) : Except String PyMat :=
  if (M.rows : ℤ) + 2 * ((w : ℤ) - 1) < 0 then
    .error "ValueError: negative dimensions are not allowed"
  else if min (w + M.rows) (extLen w M) - min w (extLen w M) = M.rows ∧
          min (w + M.cols) (extLen w M) - min w (extLen w M) = M.cols then
    .ok (donutExtMat w M)
  else
    .error "ValueError: could not broadcast input array"

/-- Zero-extension of a matrix to all integer indices, used to express
the convolution sum. -/
def extEntryZ (M : PyMat) (x y : ℤ) : ℚ :=
  if 0 ≤ x ∧ x < (M.rows : ℤ) ∧ 0 ≤ y ∧ y < (M.cols : ℤ) then
    M.entry x.toNat y.toNat
  else 0

/-- Model of `scipy.signal.convolve2d(m, k, mode='same')` (fetch.py
line 137): the centered part, of the shape of `m`, of the full 2-D
convolution, with `m` zero-padded; the centering offset of an axis of
kernel length `L` is `(L - 1) / 2`. -/
def convolve2dSame (M K : PyMat) : PyMat :=
  { rows := M.rows, cols := M.cols,
    entry := fun i j =>
      ((List.range K.rows).map (fun di =>
        ((List.range K.cols).map (fun dj =>
          K.entry di dj *
            extEntryZ M ((i : ℤ) + ((K.rows - 1) / 2 : ℕ) - di)
                       ((j : ℤ) + ((K.cols - 1) / 2 : ℕ) - dj))).sum)).sum }

/-- Pure 2-D slice extraction `m[r0:r1, c0:c1]` with nonnegative bounds,
clipped to the array (Python slicing never raises). -/
def mSlice (M : PyMat) (r0 r1 c0 c1 : ℕ) : PyMat :=
  { rows := min r1 M.rows - min r0 M.rows,
    cols := min c1 M.cols - min c0 M.cols,
    entry := fun i j =>
      if i < min r1 M.rows - min r0 M.rows ∧ j < min c1 M.cols - min c0 M.cols then
        M.entry (min r0 M.rows + i) (min c0 M.cols + j)
      else 0 }

/-- Model of the inner function `apply_donut(m)` (fetch.py lines
133-139): build `m_ext`, convolve with the kernel in `same` mode, and
extract `idx_center` again. -/
def apply_donut (w : ℕ) (K : PyMat) (M : PyMat) : Except String PyMat :=
  (donutExt w M).map (fun mext =>
    mSlice (convolve2dSame mext K) w (w + M.rows) w (w + M.cols))

/-- Body of the `hiccups` branch of `FetchHiC.__normalize_matrix`
(fetch.py lines 131-146) after `p` and `w` have been parsed: build the
kernel (`np.ones` rejects the negative dimension `2*w+1` when `w < 0`),
convolve the matrix and its diagonal-expected Toeplitz matrix, and
divide the matrix by `(m_donut / exp_donut) * exp_decay`. -/
def hiccupsApply (p w : ℤ) (M : PyMat) : Except String PyMat :=
  if w < 0 then .error "ValueError: negative dimensions are not allowed"
  else
    (apply_donut w.toNat (donut_kernel p w.toNat) M).bind (fun mDonut =>
      (apply_donut w.toNat (donut_kernel p w.toNat) (toeplitz (diagonal_mean M))).bind
        (fun expDonut =>
          .ok (ewDiv M (ewMul (ewDiv mDonut expDonut) (toeplitz (diagonal_mean M))))))

/-- Split a list of characters at every occurrence of characters
satisfying `p`, keeping empty segments (the semantics of Python
`str.split(sep)` for a one-character separator when `p` tests for that
character). -/
def splitByPred (p : Char → Bool) : List Char → List (List Char)
  | [] => [[]]
  | c :: rest =>
    match splitByPred p rest with
    | h :: t => if p c then [] :: h :: t else (c :: h) :: t
    | [] => if p c then [[], []] else [[c]]

/-- Python `str.split(sep)` for a one-character separator `sep`. -/
def pySplitOn (sep : Char) (s : String) : List String :=
  (splitByPred (fun c => c = sep) s.data).map (fun l => String.mk l)

/-- Python whitespace characters (the set recognised by `str.split()`
and `str.strip()` with no argument, restricted to ASCII). -/
def isPyWs (c : Char) : Bool :=
  c = ' ' || c = '\t' || c = '\n' || c = '\r' || c = '\x0b' || c = '\x0c'

/-- Python `str.split()` with no argument: split on runs of whitespace
and drop empty fields. -/
def pySplitWs (s : String) : List String :=
  ((splitByPred isPyWs s.data).filter (fun l => l ≠ [])).map (fun l => String.mk l)

/-- Drop characters satisfying `p` from both ends of a character list. -/
def trimEnds (p : Char → Bool) (cs : List Char) : List Char :=
  ((cs.dropWhile p).reverse.dropWhile p).reverse

/-- Value of a list of decimal digit characters. -/
def digitsVal (cs : List Char) : ℕ :=
  cs.foldl (fun n c => 10 * n + (c.toNat - 48)) 0

/-- Model of Python `int(s)` for a string: optional surrounding
whitespace, optional sign, then a nonempty run of decimal digits
(underscore separators are not modelled; no input below contains them).
`none` models the `ValueError` raised on any other input. -/
def pyInt (s : String) : Option ℤ :=
  match trimEnds isPyWs s.data with
  | [] => none
  | '-' :: rest =>
    if !rest.isEmpty && rest.all (fun c => c.isDigit) then
      some (-(digitsVal rest : ℤ))
    else none
  | '+' :: rest =>
    if !rest.isEmpty && rest.all (fun c => c.isDigit) then
      some ((digitsVal rest : ℤ))
    else none
  | cs =>
    if cs.all (fun c => c.isDigit) then some ((digitsVal cs : ℤ)) else none

/-- Model of `re.match("hiccups:.:.", norm_mth)` (fetch.py line 128):
an anchored-prefix match of the literal `hiccups:`, any character except
a newline, a colon, and any character except a newline.  The defaults of
`List.getD` are chosen so that a too-short string fails the match. -/
def hiccupsRegexMatch (s : String) : Bool :=
  s.data.take 8 == "hiccups:".data &&
    s.data.getD 8 '\n' != '\n' &&
    s.data.getD 9 ' ' == ':' &&
    s.data.getD 10 '\n' != '\n'

/-- Model of `norm_mth.strip("hiccups:")` (fetch.py line 129): remove
characters from the set of characters of `"hiccups:"` from both ends. -/
def stripHiccups (s : String) : String :=
  String.mk (trimEnds (fun c => "hiccups:".data.contains c) s.data)

/-- Model of fetch.py lines 129-130:
`p, w = norm_mth.strip("hiccups:").split(":")` followed by
`p, w = int(w), int(p)`.  The tuple unpacking raises `ValueError`
unless the split yields exactly two parts; note that the second
assignment binds `p` to the integer value of the SECOND part and `w`
to the integer value of the FIRST part. -/
def parseHiccupsPW (s : String) : Except String (ℤ × ℤ) :=
  match pySplitOn ':' (stripHiccups s) with
  | [a, b] =>
    match pyInt b, pyInt a with
    | some pb, some wa => .ok (pb, wa)
    | _, _ => .error "ValueError: invalid literal for int"
  | _ => .error "ValueError: unpacking"

/-- The mode string `hiccups:a:b` for one-digit naturals `a` and `b`. -/
def hiccupsMode (a b : ℕ) : String :=
  String.mk ("hiccups:".data ++ [Nat.digitChar a, ':', Nat.digitChar b])

/-- Model of `FetchHiC.__normalize_matrix` (fetch.py lines 112-148):
dispatch on the value of the `normalize` property.  `res` starts as
`mat` and is returned unchanged when no branch matches. -/
def normalize_matrix (norm : String) (M : PyMat) : Except String PyMat :=
  if norm = "total" then
    .ok (if sumEntries M ≠ 0 then scaleDiv M (sumEntries M) else M)
  else if norm = "expect" then
    .ok (ewDiv M (toeplitz (diagonal_mean M)))
  else if norm = "zscore" then
    (diagonal_mean_std M).bind (fun ms =>
      .ok (ewDiv (ewSub M (toeplitz ms.1)) (toeplitz ms.2)))
  else if hiccupsRegexMatch norm = true then
    (parseHiccupsPW norm).bind (fun pw => hiccupsApply pw.1 pw.2 M)
  else
    .ok M

/-- A 2-D numpy array with real entries, for the logarithmic transform
stage (exact logarithms do not exist in `ℚ`). -/
structure PyMatR where
  rows : ℕ
  cols : ℕ
  entry : ℕ → ℕ → ℝ

/-- Model of `FetchHiC.__transform_matrix` (fetch.py lines 150-157):
elementwise `np.log10`, `np.log2` or `np.log`; any other value of the
`transform` property leaves the matrix unchanged. -/
noncomputable def transform_matrix (t : String) (M : PyMatR) : PyMatR :=
  if t = "log10" then { M with entry := fun i j => Real.logb 10 (M.entry i j) }
  else if t = "log2" then { M with entry := fun i j => Real.logb 2 (M.entry i j) }
  else if t = "log" then { M with entry := fun i j => Real.log (M.entry i j) }
  else M

/-- Model of the stage pipeline `FetchHiC.normalize_matrix` (fetch.py
lines 37-62) over real matrices, restricted to configurations in which
every stage other than `transform` sits at the `'no'` sentinel (each
stage runs only when its property differs from `'no'`); configurations
that would run the normalize, gaussian or user-function stages on a real
matrix are outside this model and map to `none`. -/
noncomputable def normalize_pipelineR
    (transform normalize gaussian_sigma process_func : String) (M : PyMatR) :
    Option PyMatR :=
  if normalize = "no" ∧ gaussian_sigma = "no" ∧ process_func = "no" then
    some (if transform ≠ "no" then transform_matrix transform M else M)
  else none

/-- The `LoopInterval` namedtuple of `HiCPeaks` (hicpeaks.py lines
71-72): the six positional fields of an annotation record plus the
resolved color string. -/
structure LoopInterval where
  chr1 : String
  x1 : ℤ
  x2 : ℤ
  chr2 : String
  y1 : ℤ
  y2 : ℤ
  color : String
deriving DecidableEq

/-- The per-chromosome interval index of `HiCPeaks`: an association list
from chromosome name to the stored intervals `(begin, end, data)`, where
`begin = x1` and `end = y2` (hicpeaks.py line 213). -/
abbrev LoopTree := List (String × List (ℤ × ℤ × LoopInterval))

/-- Modelled from the spec: `coolbox.utilities.change_chrom_names` is
imported by hicpeaks.py but its definition is not under `src/`.  Spec
sections 4.2 and 8 describe it as switching between the two chromosome
naming conventions, `"1"` versus `"chr1"`: a name carrying the `chr`
prefix loses it, any other name gains it. -/
def change_chrom_names (c : String) : String :=
  if c.data.take 3 == "chr".data then String.mk (c.data.drop 3)
  else "chr" ++ c

/-- Two lowercase hexadecimal digits for a channel value. -/
def hex2 (x : ℤ) : String :=
  String.mk (if (Nat.toDigits 16 x.toNat).length = 1
             then '0' :: Nat.toDigits 16 x.toNat
             else Nat.toDigits 16 x.toNat)

/-- Modelled from the spec: `coolbox.utilities.rgb2hex` is imported by
hicpeaks.py but its definition is not under `src/`.  Spec section 4.2
describes it as converting an `R,G,B` triple to a hex color string, so
`rgb2hex 255 0 0 = "#ff0000"`. -/
def rgb2hex (r g b : ℤ) : String :=
  "#" ++ hex2 r ++ hex2 g ++ hex2 b

/-- Python `str.isdigit()` restricted to ASCII: nonempty and all
decimal digits. -/
def pyIsDigit (s : String) : Bool :=
  !s.data.isEmpty && s.data.all (fun c => c.isDigit)

/-- Test whether the field at position `i` is not a digit string;
accessing a missing position raises `IndexError`
(hicpeaks.py line 220). -/
def checkAt (fields : List String) (i : ℕ) : Except String Bool :=
  match fields.get? i with
  | some f => .ok (!pyIsDigit f)
  | none => .error "IndexError: list index out of range"

/-- Model of `HiCPeaks.__is_header` (hicpeaks.py lines 217-222): split
the line on whitespace and report whether any of the fields at positions
1, 2, 4, 5 is not a digit string, checking the positions in that order;
accessing a missing position raises `IndexError`. -/
def is_header (line : String) : Except String Bool :=
  (checkAt (pySplitWs line) 1).bind (fun h1 =>
    if h1 then .ok true else
    (checkAt (pySplitWs line) 2).bind (fun h2 =>
      if h2 then .ok true else
      (checkAt (pySplitWs line) 4).bind (fun h4 =>
        if h4 then .ok true else
        (checkAt (pySplitWs line) 5).bind (fun h5 =>
          .ok h5))))

/-- Parse a list of integer strings, the model of `list(map(int,l))`;
`none` models the `ValueError` of the first failing conversion. -/
def mapIntList : List String → Option (List ℤ)
  | [] => some []
  | s :: t => (pyInt s).bind (fun v => (mapIntList t).map (fun r => v :: r))

/-- The color of a record (hicpeaks.py lines 205-210): the fixed default
`HiCPeaks.DEFAULT_COLOR = "#2255ff"` when no 7th field is present,
otherwise the 7th field split on commas, converted to integers and
passed to `rgb2hex` (which takes exactly three channels). -/
def colorOf (other : List String) : Except String String :=
  match other with
  | [] => .ok "#2255ff"
  | o :: _ =>
    match mapIntList (pySplitOn ',' o) with
    | none => .error "ValueError: invalid literal for int"
    | some [r, g, b] => .ok (rgb2hex r g b)
    | some _ => .error "TypeError: rgb2hex argument count"

/-- Parse one data line of a loop file (hicpeaks.py lines 191-213):
unpack at least six whitespace-separated fields, convert the four
coordinates with `int`, skip inter-chromosomal records (`none`),
normalize the chromosome key when it lacks the `chr` prefix, resolve
the color, and produce the interval `(x1, y2, loop)` to be added (the
`intervaltree` library rejects a null interval with `x1 >= y2`). -/
def parse_loop_line (line : String) :
    Except String (Option (String × (ℤ × ℤ × LoopInterval))) :=
  match pySplitWs line with
  | c1 :: x1s :: x2s :: c2 :: y1s :: y2s :: other =>
    match pyInt x1s, pyInt x2s, pyInt y1s, pyInt y2s with
    | some x1, some x2, some y1, some y2 =>
      if c1 ≠ c2 then .ok none
      else
        (colorOf other).bind (fun color =>
          if x1 < y2 then
            .ok (some (if c1.data.take 3 == "chr".data then c1
                       else change_chrom_names c1,
                       (x1, y2, ⟨c1, x1, x2, c2, y1, y2, color⟩)))
          else .error "ValueError: null Interval")
    | _, _, _, _ => .error "ValueError: invalid literal for int"
  | _ => .error "ValueError: not enough values to unpack"

/-- Append an interval under a chromosome key, creating the key if it is
absent (hicpeaks.py lines 202-203 and 213). -/
def tree_add (t : LoopTree) (c : String) (iv : ℤ × ℤ × LoopInterval) : LoopTree :=
  match t with
  | [] => [(c, [iv])]
  | (c0, l) :: rest =>
    if c0 = c then (c0, l ++ [iv]) :: rest else (c0, l) :: tree_add rest c iv

/-- Dictionary lookup of a chromosome key in the interval index. -/
def tree_lookup : LoopTree → String → Option (List (ℤ × ℤ × LoopInterval))
  | [], _ => none
  | (c0, l) :: rest, c => if c0 = c then some l else tree_lookup rest c

/-- The lines a Python text-file iteration yields, modelled on the
decoded file content: split at newlines, with no final empty line when
the content ends in a newline.  (Python keeps the `"\n"` terminator on
each yielded line; all consumers below split on whitespace, so the
terminators are dropped here.) -/
def pyLines (content : String) : List String :=
  if (pySplitOn '\n' content).getLast? = some "" then
    (pySplitOn '\n' content).dropLast
  else pySplitOn '\n' content

/-- Worker of `HiCPeaks.__process_loop_file` (hicpeaks.py lines
181-215): iterate over the numbered lines, skipping the first line when
`__is_header` holds, and fold every parsed record into the index. -/
def process_loop_lines : ℕ → List String → LoopTree → Except String LoopTree
  | _, [], t => .ok t
  | idx, l :: rest, t =>
    if idx = 0 then
      (is_header l).bind (fun hdr =>
        if hdr then process_loop_lines 1 rest t
        else
          (parse_loop_line l).bind (fun r =>
            process_loop_lines 1 rest
              (match r with
               | none => t
               | some (c, iv) => tree_add t c iv)))
    else
      (parse_loop_line l).bind (fun r =>
        process_loop_lines (idx + 1) rest
          (match r with
           | none => t
           | some (c, iv) => tree_add t c iv))

/-- Model of `HiCPeaks.__process_loop_file` applied to the decoded
content of the annotation file. -/
def process_loop_file (content : String) : Except String LoopTree :=
  process_loop_lines 0 (pyLines content) []

/-- Strict lexicographic order on `(begin, end)` used to sort query
results; `sorted()` on `intervaltree.Interval` objects compares
`(begin, end, data)`, and no query below produces two intervals with
equal `(begin, end)`, so the data tiebreak is not modelled. -/
def keyLt (a b : ℤ × ℤ × LoopInterval) : Prop :=
  a.1 < b.1 ∨ (a.1 = b.1 ∧ a.2.1 < b.2.1)

instance (a b : ℤ × ℤ × LoopInterval) : Decidable (keyLt a b) := by
  unfold keyLt; infer_instance

/-- Stable insertion into a sorted list: an element moves left past
exactly the elements strictly greater than it. -/
def insertSorted (x : ℤ × ℤ × LoopInterval) :
    List (ℤ × ℤ × LoopInterval) → List (ℤ × ℤ × LoopInterval)
  | [] => [x]
  | y :: ys => if keyLt x y then x :: y :: ys else y :: insertSorted x ys

/-- Stable insertion sort, the model of Python `sorted()` on intervals
(hicpeaks.py line 86). -/
def pySorted (l : List (ℤ × ℤ × LoopInterval)) : List (ℤ × ℤ × LoopInterval) :=
  l.foldr insertSorted []

/-- Model of the interval lookup of `HiCPeaks.plot` (hicpeaks.py lines
75-87): when the requested chromosome is not a key of the index, retry
with the converted chromosome name; indexing the dictionary with a
missing key raises `KeyError`; the tree slice `tree[start:end]` returns
the intervals overlapping the half-open range, iterated in sorted order,
and the loop body reads `intval.data`.  (The `fetch_region` branch of
lines 80-84 concerns a track attribute absent in this model, so the
plain `start_region`/`end_region` branch is taken.) -/
def query_loops (t : LoopTree) (chrom : String) (qs qe : ℤ) :
    Except String (List LoopInterval) :=
  match tree_lookup t (if (tree_lookup t chrom).isSome then chrom
                       else change_chrom_names chrom) with
  | none => .error "KeyError"
  | some ivs =>
    .ok ((pySorted (ivs.filter (fun iv => decide (iv.1 < qe) && decide (qs < iv.2.1)))).map
          (fun iv => iv.2.2))

/-- Shape accessor through the exception layer (0 on an exception). -/
def exceptRows (e : Except String PyMat) : ℕ :=
  match e with
  | .ok m => m.rows
  | .error _ => 0

/-- Shape accessor through the exception layer (0 on an exception). -/
def exceptCols (e : Except String PyMat) : ℕ :=
  match e with
  | .ok m => m.cols
  | .error _ => 0

/-- Entry accessor through the exception layer (0 on an exception). -/
def exceptEntry (e : Except String PyMat) (i j : ℕ) : ℚ :=
  match e with
  | .ok m => m.entry i j
  | .error _ => 0

/-- The stds component of a `diagonal_mean_std` result (empty on an
exception). -/
def stdsOf (e : Except String (List ℚ × List ℚ)) : List ℚ :=
  match e with
  | .ok ms => ms.2
  | .error _ => []

/-- Concrete 2x2 matrix used by the counterexamples and witnesses. -/
def M1c : PyMat := ⟨2, 2, fun i j => if i = j then 4 else 1⟩

/-- Concrete 2x2 matrix used by the C3 counterexample. -/
def M3c : PyMat := ⟨2, 2, fun i j => (i : ℚ) + (j : ℚ)⟩

/-- Concrete 2x2 matrix with nonzero total used by the C4 witness. -/
def M4w : PyMat := ⟨2, 2, fun i j => if i = j then 3 else 2⟩

/-- Concrete 2x2 matrix used by the C5 witness. -/
def M5w : PyMat := ⟨2, 2, fun i j => (i : ℚ) + (j : ℚ) + 1⟩

/-- Concrete 1x1 real matrix with positive entries for the C6 witness. -/
noncomputable def M6w : PyMatR := ⟨1, 1, fun _ _ => 1⟩

/-- Concrete 1x1 matrix whose single diagonal is constant (C8
counterexample). -/
def M8c : PyMat := ⟨1, 1, fun _ _ => 5⟩

/-- Concrete 2x2 matrix whose main diagonal has positive spread (C8
witness). -/
def M8w : PyMat :=
  ⟨2, 2, fun i j => if i = 0 ∧ j = 0 then 1 else if i = 1 ∧ j = 1 then 3 else 9⟩

/-- Concrete 1x1 matrix used by the C9 theorems. -/
def M9c : PyMat := ⟨1, 1, fun _ _ => 3⟩

/-- Concrete 1x1 real matrix used by the C9 theorems. -/
noncomputable def M9cR : PyMatR := ⟨1, 1, fun _ _ => 3⟩

/-- Concrete interval index holding only the key `chr1` (C10 witness). -/
def T10w : LoopTree := [("chr1", [])]

theorem list_sum_div (l : List ℚ) (c : ℚ) :
    (l.map (fun x => x / c)).sum = l.sum / c := by
  induction l with
  | nil => simp
  | cons a t ih => simp [ih, add_div]

theorem sumEntries_scaleDiv (M : PyMat) (c : ℚ) :
    sumEntries (scaleDiv M c) = sumEntries M / c := by
  unfold sumEntries scaleDiv
  have h : ∀ i, ((List.range M.cols).map (fun j => M.entry i j / c)).sum
      = ((List.range M.cols).map (fun j => M.entry i j)).sum / c := by
    intro i
    rw [show (fun j => M.entry i j / c) = (fun x => x / c) ∘ (fun j => M.entry i j)
          from rfl,
        ← List.map_map, list_sum_div]
  simp only [h]
  rw [show (fun i => ((List.range M.cols).map (fun j => M.entry i j)).sum / c)
        = (fun x => x / c) ∘ (fun i => ((List.range M.cols).map (fun j => M.entry i j)).sum)
        from rfl,
      ← List.map_map, list_sum_div]

theorem toeplitz_entry_natAbs (c : List ℚ) (i j : ℕ) :
    (toeplitz c).entry i j = c.getD (((i : ℤ) - (j : ℤ)).natAbs) 0 := by
  show (if j ≤ i then c.getD (i - j) 0 else c.getD (j - i) 0) = _
  by_cases h : j ≤ i
  · rw [if_pos h, show i - j = ((i : ℤ) - (j : ℤ)).natAbs by omega]
  · rw [if_neg h, show j - i = ((i : ℤ) - (j : ℤ)).natAbs by omega]

theorem resolveIdx_of_nonneg (len : ℕ) (x : ℤ) (h : 0 ≤ x) :
    resolveIdx len x = min x.toNat len := by
  unfold resolveIdx
  rw [if_neg (by omega)]

theorem foldl_min_pos (t : List ℚ) : ∀ h : ℚ, 0 < h → (∀ x ∈ t, 0 < x) →
    0 < t.foldl min h := by
  induction t with
  | nil => intro h hh _; simpa using hh
  | cons a t ih =>
    intro h hh hall
    simp only [List.foldl_cons]
    exact ih (min h a) (lt_min hh (hall a (List.mem_cons_self a t)))
      (fun x hx => hall x (List.mem_cons_of_mem a hx))

theorem donutExt_eq (w : ℕ) (M : PyMat) (hw : 2 ≤ w) (hsq : M.cols = M.rows) :
    donutExt w M = .ok (donutExtMat w M) := by
  have h1 : ¬ ((M.rows : ℤ) + 2 * ((w : ℤ) - 1) < 0) := by omega
  have h2 : min (w + M.rows) (extLen w M) - min w (extLen w M) = M.rows ∧
      min (w + M.cols) (extLen w M) - min w (extLen w M) = M.cols := by
    unfold extLen; omega
  unfold donutExt
  rw [if_neg h1, if_pos h2]

theorem apply_donut_eq (w : ℕ) (K M : PyMat) (hw : 2 ≤ w) (hsq : M.cols = M.rows) :
    apply_donut w K M
      = .ok (mSlice (convolve2dSame (donutExtMat w M) K) w (w + M.rows) w (w + M.cols)) := by
  unfold apply_donut
  rw [donutExt_eq w M hw hsq]
  rfl

theorem hiccupsApply_ok (p w : ℤ) (hw : 2 ≤ w) (M : PyMat) (hsq : M.cols = M.rows) :
    ∃ r, hiccupsApply p w M = .ok r ∧ r.rows = M.rows ∧ r.cols = M.cols := by
  have hw0 : ¬ (w < 0) := by omega
  have hwn : 2 ≤ w.toNat := by omega
  have hsqT : (toeplitz (diagonal_mean M)).cols = (toeplitz (diagonal_mean M)).rows := rfl
  unfold hiccupsApply
  rw [if_neg hw0, apply_donut_eq w.toNat _ M hwn hsq, apply_donut_eq w.toNat _ _ hwn hsqT]
  exact ⟨_, rfl, rfl, rfl⟩

theorem parse_hiccups_digits (a b : ℕ) (ha1 : 1 ≤ a) (ha9 : a ≤ 9)
    (hb1 : 1 ≤ b) (hb9 : b ≤ 9) :
    hiccupsMode a b ≠ "total" ∧ hiccupsMode a b ≠ "expect" ∧
    hiccupsMode a b ≠ "zscore" ∧
    hiccupsRegexMatch (hiccupsMode a b) = true ∧
    parseHiccupsPW (hiccupsMode a b) = .ok ((b : ℤ), (a : ℤ)) := by
  interval_cases a <;> interval_cases b <;>
    exact ⟨by decide, by decide, by decide, by decide, rfl⟩

theorem normalize_matrix_hiccups_eq (s : String) (M : PyMat) (p w : ℤ)
    (h1 : s ≠ "total") (h2 : s ≠ "expect") (h3 : s ≠ "zscore")
    (h4 : hiccupsRegexMatch s = true)
    (h5 : parseHiccupsPW s = .ok (p, w)) :
    normalize_matrix s M = hiccupsApply p w M := by
  unfold normalize_matrix
  rw [if_neg h1, if_neg h2, if_neg h3, if_pos h4, h5]
  rfl

/-- Claim C1, counterexample: the mode string `hiccups:2:2` has positive
P = W = 2 with P >= W, yet `__normalize_matrix` completes normally on a
concrete 2x2 matrix instead of raising — no P < W validation exists in
the code. -/
theorem claim1_no_error_cex : (normalize_matrix "hiccups:2:2" M1c).isOk = true := rfl

/-- Claim C1, amended: no `P < W` validation is performed at all.  For
every mode string `hiccups:P:W` with one-digit integers `P >= W >= 1`
and `P >= 2`, and every square matrix, `__normalize_matrix` completes
without raising any exception (numpy divisions by zero warn, they do not
raise).  (For `P = 1` an incidental broadcast `ValueError` arises from
the shape mismatch in `apply_donut`, still not a configuration check.) -/
theorem claim1_no_validation (a b : ℕ) (ha2 : 2 ≤ a) (ha9 : a ≤ 9)
    (hb1 : 1 ≤ b) (hba : b ≤ a) (M : PyMat) (hsq : M.cols = M.rows) :
    (normalize_matrix (hiccupsMode a b) M).isOk = true := by
  obtain ⟨h1, h2, h3, h4, h5⟩ := parse_hiccups_digits a b (by omega) ha9 hb1 (by omega)
  rw [normalize_matrix_hiccups_eq (hiccupsMode a b) M (b : ℤ) (a : ℤ) h1 h2 h3 h4 h5]
  obtain ⟨r, hr, _, _⟩ := hiccupsApply_ok (b : ℤ) (a : ℤ) (by exact_mod_cast ha2) M hsq
  rw [hr]
  rfl

/-- Witness for `claim1_no_validation` at the concrete mode
`hiccups:2:2` and a concrete 2x2 matrix. -/
theorem claim1_no_validation_w :
    (1 : ℕ) ≤ 2 ∧ (normalize_matrix (hiccupsMode 2 2) M1c).isOk = true :=
  ⟨by omega, claim1_no_validation 2 2 (by omega) (by omega) (by omega) (by omega) M1c rfl⟩

/-- Claim C2, counterexample: `hiccups:10:20` (P = 10 < W = 20, both
positive) is not recognized at all by the regex `hiccups:.:.`; and for
the recognized mode `hiccups:1:2` (P = 1 < W = 2) the parsed pair is
swapped — `p, w = int(w), int(p)` binds the kernel's outer half-width to
the FIRST number — so the kernel has size 3, not the (2W+1) = 5 the
claim requires. -/
theorem claim2_swap_cex :
    hiccupsRegexMatch "hiccups:10:20" = false ∧
    parseHiccupsPW "hiccups:1:2" = .ok (2, 1) ∧
    (donut_kernel 2 1).rows = 3 ∧ (3 : ℕ) ≠ 2 * 2 + 1 :=
  ⟨rfl, rfl, rfl, by omega⟩


set_option maxHeartbeats 1000000 in
/-- Claim C2, amended: for one-digit `a`, `b` with `1 <= b < a`, the mode
`hiccups:a:b` is recognized and parsed with the roles swapped: the FIRST
number `a` becomes the outer kernel half-width `w` (kernel size `2a+1`)
and the SECOND number `b` the inner exclusion half-width `p`.  The
kernel is the all-ones matrix minus the indicator of the central
`(2b+1) x (2b+1)` square minus the indicator of a cross whose upper/left
arms abut the inner square but whose lower/right arms start at offset
`2b-1` from the center (overlapping the inner square when `b = 1`, where
entries become -1, and leaving a gap when `b > 2`). -/
theorem claim2_kernel_amended (a b : ℕ) (hb1 : 1 ≤ b) (hba : b < a) (ha9 : a ≤ 9)
    (i j : ℕ) (hi : i < 2 * a + 1) (hj : j < 2 * a + 1) :
    hiccupsRegexMatch (hiccupsMode a b) = true ∧
    parseHiccupsPW (hiccupsMode a b) = .ok ((b : ℤ), (a : ℤ)) ∧
    (donut_kernel (b : ℤ) a).rows = 2 * a + 1 ∧
    (donut_kernel (b : ℤ) a).entry i j
      = 1 - (if a - b ≤ i ∧ i ≤ a + b ∧ a - b ≤ j ∧ j ≤ a + b then 1 else 0)
          - (if (j = a ∧ i < a - b) ∨ (i = a ∧ j < a - b) ∨
                (i = a ∧ a + 2 * b - 1 ≤ j) ∨ (j = a ∧ a + 2 * b - 1 ≤ i)
             then 1 else 0) := by
  obtain ⟨_, _, _, h4, h5⟩ := parse_hiccups_digits a b (by omega) (by omega) hb1 (by omega)
  refine ⟨h4, h5, rfl, ?_⟩
  have r1 : resolveIdx (2 * a + 1) ((a : ℤ) - (b : ℤ)) = min ((a : ℤ) - (b : ℤ)).toNat (2 * a + 1) :=
    resolveIdx_of_nonneg _ _ (by omega)
  have r2 : resolveIdx (2 * a + 1) ((a : ℤ) + (b : ℤ) + 1) = min ((a : ℤ) + (b : ℤ) + 1).toNat (2 * a + 1) :=
    resolveIdx_of_nonneg _ _ (by omega)
  have r3 : resolveIdx (2 * a + 1) 0 = min (0 : ℤ).toNat (2 * a + 1) :=
    resolveIdx_of_nonneg _ _ (by omega)
  have r4 : resolveIdx (2 * a + 1) ((a : ℤ) + 2 * (b : ℤ) - 1) = min ((a : ℤ) + 2 * (b : ℤ) - 1).toNat (2 * a + 1) :=
    resolveIdx_of_nonneg _ _ (by omega)
  have r5 : resolveIdx (2 * a + 1) (2 * (a : ℤ) + 1) = min (2 * (a : ℤ) + 1).toNat (2 * a + 1) :=
    resolveIdx_of_nonneg _ _ (by omega)
  have e1 : (inSlice (2 * a + 1) ((a : ℤ) - (b : ℤ)) ((a : ℤ) + (b : ℤ) + 1) i ∧
             inSlice (2 * a + 1) ((a : ℤ) - (b : ℤ)) ((a : ℤ) + (b : ℤ) + 1) j) ↔
      (a - b ≤ i ∧ i ≤ a + b ∧ a - b ≤ j ∧ j ≤ a + b) := by
    unfold inSlice
    rw [r1, r2]
    omega
  have e2 : ((inSlice (2 * a + 1) 0 ((a : ℤ) - (b : ℤ)) i ∧ j = a) ∨
             (i = a ∧ inSlice (2 * a + 1) 0 ((a : ℤ) - (b : ℤ)) j) ∨
             (i = a ∧ inSlice (2 * a + 1) ((a : ℤ) + 2 * (b : ℤ) - 1) (2 * (a : ℤ) + 1) j) ∨
             (inSlice (2 * a + 1) ((a : ℤ) + 2 * (b : ℤ) - 1) (2 * (a : ℤ) + 1) i ∧ j = a)) ↔
      ((j = a ∧ i < a - b) ∨ (i = a ∧ j < a - b) ∨
       (i = a ∧ a + 2 * b - 1 ≤ j) ∨ (j = a ∧ a + 2 * b - 1 ≤ i)) := by
    unfold inSlice
    rw [r1, r3, r4, r5]
    omega
  simp only [donut_kernel]
  rw [if_pos ⟨hi, hj⟩, if_congr e1 rfl rfl, if_congr e2 rfl rfl]

/-- Witness for `claim2_kernel_amended` at `a = 2`, `b = 1`, entry
`(2, 3)` — an entry where the inner square and the lower-right arm of
the cross overlap. -/
theorem claim2_kernel_amended_w :
    (1 : ℕ) ≤ 1 ∧
    parseHiccupsPW (hiccupsMode 2 1) = .ok ((1 : ℤ), (2 : ℤ)) ∧
    (donut_kernel ((1 : ℕ) : ℤ) 2).entry 2 3
      = 1 - (if 2 - 1 ≤ 2 ∧ 2 ≤ 2 + 1 ∧ 2 - 1 ≤ 3 ∧ 3 ≤ 2 + 1 then 1 else 0)
          - (if ((3 : ℕ) = 2 ∧ 2 < 2 - 1) ∨ ((2 : ℕ) = 2 ∧ 3 < 2 - 1) ∨
                ((2 : ℕ) = 2 ∧ 2 + 2 * 1 - 1 ≤ 3) ∨ ((3 : ℕ) = 2 ∧ 2 + 2 * 1 - 1 ≤ 2)
             then 1 else 0) :=
  ⟨le_refl 1,
   (claim2_kernel_amended 2 1 (by omega) (by omega) (by omega) 2 3 (by omega) (by omega)).2.1,
   (claim2_kernel_amended 2 1 (by omega) (by omega) (by omega) 2 3 (by omega) (by omega)).2.2.2⟩

/-- Claim C3, counterexample: for the valid mode `hiccups:2:3`
(P = 2 < W = 3, both positive) the code parses `w = 2` (the FIRST
number), so a 2x2 matrix is embedded into an extended matrix of side
`2 + 2*(2-1) = 4`, not the `2 + 2*(W-1) = 6` that padding by `W-1` on
each side would give. -/
theorem claim3_pad_cex :
    parseHiccupsPW "hiccups:2:3" = .ok (3, 2) ∧
    exceptRows (donutExt 2 M3c) = 4 ∧ (4 : ℕ) ≠ 2 + 2 * (3 - 1) :=
  ⟨rfl, rfl, by omega⟩

/-- Claim C3, amended: writing `a` for the FIRST number of the mode
string (the code's `w`), with `2 <= a <= 9` and a square input, the
extended matrix has side `n + 2*(a-1)` — a total padding of `2*(a-1)`
zeros per axis, but placed asymmetrically: the input sits at offset `a`,
so `a` zeros precede it and `a-2` follow it on each axis.  The
convolution output is re-sliced at the same offsets, and the matrix
returned by `__normalize_matrix` has the same shape as the input. -/
theorem claim3_padding_amended (a b : ℕ) (ha2 : 2 ≤ a) (ha9 : a ≤ 9)
    (hb1 : 1 ≤ b) (hb9 : b ≤ 9) (M : PyMat) (hsq : M.cols = M.rows) (i j : ℕ) :
    donutExt a M = .ok (donutExtMat a M) ∧
    (donutExtMat a M).rows = M.rows + 2 * (a - 1) ∧
    (donutExtMat a M).cols = M.rows + 2 * (a - 1) ∧
    (donutExtMat a M).entry i j
      = (if a ≤ i ∧ i < a + M.rows ∧ a ≤ j ∧ j < a + M.cols
         then M.entry (i - a) (j - a) else 0) ∧
    exceptRows (apply_donut a (donut_kernel (b : ℤ) a) M) = M.rows ∧
    exceptRows (normalize_matrix (hiccupsMode a b) M) = M.rows ∧
    exceptCols (normalize_matrix (hiccupsMode a b) M) = M.cols := by
  obtain ⟨h1, h2, h3, h4, h5⟩ := parse_hiccups_digits a b (by omega) ha9 hb1 hb9
  have e1 : min (a + M.rows) (extLen a M) = a + M.rows := by
    unfold extLen; omega
  have e2 : min (a + M.cols) (extLen a M) = a + M.cols := by
    unfold extLen; omega
  refine ⟨donutExt_eq a M ha2 hsq, ?_, ?_, ?_, ?_, ?_, ?_⟩
  · show extLen a M = M.rows + 2 * (a - 1)
    unfold extLen; omega
  · show extLen a M = M.rows + 2 * (a - 1)
    unfold extLen; omega
  · simp only [donutExtMat, e1, e2]
  · rw [apply_donut_eq a _ M ha2 hsq]
    show min (a + M.rows) (extLen a M) - min a (extLen a M) = M.rows
    unfold extLen; omega
  · rw [normalize_matrix_hiccups_eq (hiccupsMode a b) M (b : ℤ) (a : ℤ) h1 h2 h3 h4 h5]
    obtain ⟨r, hr, hrows, hcols⟩ := hiccupsApply_ok (b : ℤ) (a : ℤ) (by exact_mod_cast ha2) M hsq
    rw [hr]
    exact hrows
  · rw [normalize_matrix_hiccups_eq (hiccupsMode a b) M (b : ℤ) (a : ℤ) h1 h2 h3 h4 h5]
    obtain ⟨r, hr, hrows, hcols⟩ := hiccupsApply_ok (b : ℤ) (a : ℤ) (by exact_mod_cast ha2) M hsq
    rw [hr]
    exact hcols

/-- Witness for `claim3_padding_amended` at `a = 2`, `b = 1` and a
concrete 2x2 matrix: the extended side is 4 and the normalized output
keeps the input shape. -/
theorem claim3_padding_amended_w :
    (2 : ℕ) ≤ 2 ∧
    (donutExtMat 2 M3c).rows = M3c.rows + 2 * (2 - 1) ∧
    exceptRows (normalize_matrix (hiccupsMode 2 1) M3c) = M3c.rows :=
  ⟨le_refl 2,
   (claim3_padding_amended 2 1 (by omega) (by omega) (by omega) (by omega) M3c rfl 0 0).2.1,
   (claim3_padding_amended 2 1 (by omega) (by omega) (by omega) (by omega) M3c rfl 0 0).2.2.2.2.2.1⟩

/-- Claim C4: with mode `total`, when the sum of all entries is nonzero
every entry is divided by that sum and the result sums to exactly 1;
when the sum is exactly zero the matrix is returned unchanged
(fetch.py lines 115-118). -/
theorem claim4_total_normalize (M : PyMat) :
    (sumEntries M ≠ 0 →
      normalize_matrix "total" M = .ok (scaleDiv M (sumEntries M)) ∧
      sumEntries (scaleDiv M (sumEntries M)) = 1) ∧
    (sumEntries M = 0 → normalize_matrix "total" M = .ok M) := by
  constructor
  · intro h
    constructor
    · unfold normalize_matrix
      rw [if_pos rfl, if_pos h]
    · rw [sumEntries_scaleDiv, div_self h]
  · intro h
    unfold normalize_matrix
    rw [if_pos rfl, if_neg (not_not_intro h)]

/-- Witness for `claim4_total_normalize` on a concrete 2x2 matrix with
entry sum 10. -/
theorem claim4_total_normalize_w :
    sumEntries M4w ≠ 0 ∧
    normalize_matrix "total" M4w = .ok (scaleDiv M4w (sumEntries M4w)) ∧
    sumEntries (scaleDiv M4w (sumEntries M4w)) = 1 := by
  have h : sumEntries M4w ≠ 0 := by
    norm_num [sumEntries, M4w, List.range_succ]
  exact ⟨h, ((claim4_total_normalize M4w).1 h).1, ((claim4_total_normalize M4w).1 h).2⟩

/-- Claim C5: the expected-value matrix of `expect` normalization is the
Toeplitz matrix of the diagonal means — constant along each diagonal,
with entry `(i, j)` equal to `diagonal_mean[|i - j|]` — and the `expect`
branch returns the matrix divided elementwise by it (fetch.py lines
119-122). -/
theorem claim5_expect_toeplitz (M : PyMat) (i j : ℕ)
    (_hi : i < M.rows) (_hj : j < M.rows) :
    (toeplitz (diagonal_mean M)).entry i j
      = (diagonal_mean M).getD (((i : ℤ) - (j : ℤ)).natAbs) 0 ∧
    exceptEntry (normalize_matrix "expect" M) i j
      = M.entry i j / (diagonal_mean M).getD (((i : ℤ) - (j : ℤ)).natAbs) 0 := by
  have ht := toeplitz_entry_natAbs (diagonal_mean M) i j
  refine ⟨ht, ?_⟩
  have he : normalize_matrix "expect" M = .ok (ewDiv M (toeplitz (diagonal_mean M))) := by
    unfold normalize_matrix
    rw [if_neg (by decide), if_pos rfl]
  rw [he]
  show M.entry i j / (toeplitz (diagonal_mean M)).entry i j = _
  rw [ht]

/-- Witness for `claim5_expect_toeplitz` at a concrete 2x2 matrix and
the index pair `(1, 0)`. -/
theorem claim5_expect_toeplitz_w :
    (1 : ℕ) < M5w.rows ∧
    (toeplitz (diagonal_mean M5w)).entry 1 0
      = (diagonal_mean M5w).getD (((1 : ℤ) - (0 : ℤ)).natAbs) 0 ∧
    exceptEntry (normalize_matrix "expect" M5w) 1 0
      = M5w.entry 1 0 / (diagonal_mean M5w).getD (((1 : ℤ) - (0 : ℤ)).natAbs) 0 :=
  ⟨by decide,
   (claim5_expect_toeplitz M5w 1 0 (by decide) (by decide)).1,
   (claim5_expect_toeplitz M5w 1 0 (by decide) (by decide)).2⟩

/-- Claim C6: with `transform = 'log2'` and all other stages at the
`'no'` sentinel, the pipeline applies exactly the elementwise `np.log2`,
and on a matrix with strictly positive entries the elementwise `2 ** x`
reconstructs the original matrix (fetch.py lines 40-46 and 150-157). -/
theorem claim6_log2_roundtrip (M : PyMatR) (h : ∀ i j, 0 < M.entry i j) (i j : ℕ) :
    normalize_pipelineR "log2" "no" "no" "no" M = some (transform_matrix "log2" M) ∧
    (2 : ℝ) ^ (transform_matrix "log2" M).entry i j = M.entry i j := by
  constructor
  · unfold normalize_pipelineR
    rw [if_pos ⟨rfl, rfl, rfl⟩, if_pos (by decide)]
  · have ht : (transform_matrix "log2" M).entry i j = Real.logb 2 (M.entry i j) := by
      unfold transform_matrix
      rw [if_neg (by decide), if_pos rfl]
    rw [ht]
    exact Real.rpow_logb (by norm_num) (by norm_num) (h i j)

/-- Witness for `claim6_log2_roundtrip` on the 1x1 all-ones real
matrix. -/
theorem claim6_log2_roundtrip_w :
    (0 : ℝ) < M6w.entry 0 0 ∧
    (2 : ℝ) ^ (transform_matrix "log2" M6w).entry 0 0 = M6w.entry 0 0 := by
  have h : ∀ i j, (0 : ℝ) < M6w.entry i j := by
    intro i j
    show (0 : ℝ) < 1
    norm_num
  exact ⟨h 0 0, (claim6_log2_roundtrip M6w h 0 0).2⟩

/-- Claim C7: loading the single-line annotation file
`chr1	100	200	chr1	500	600	255,0,0` and querying `chr1`, 50, 300
returns exactly one loop interval, indexed under the span [100, 600]
which overlaps [50, 300], with color `#ff0000` (hicpeaks.py lines 75-97
and 181-215). -/
theorem claim7_loop_query :
    (process_loop_file "chr1\t100\t200\tchr1\t500\t600\t255,0,0\n").bind
        (fun t => query_loops t "chr1" 50 300)
      = .ok [⟨"chr1", 100, 200, "chr1", 500, 600, "#ff0000"⟩] := rfl

/-- Claim C8, counterexample: on the 1x1 matrix `[[5]]` every diagonal
has zero standard deviation, and instead of producing a zero-free std
vector the code raises: `stds[stds > 0]` is empty and `.min()` fails,
so `zscore` normalization fails as well — the claimed invariant does
not hold for every input matrix. -/
theorem claim8_allzero_cex :
    (diagonal_mean_std M8c).isOk = false ∧
    (normalize_matrix "zscore" M8c).isOk = false := by
  have hv : diagonalVars M8c = [0] := by
    norm_num [diagonalVars, diagonalVar, diagEntries, M8c, List.range_succ]
  have hf : (diagonalVars M8c).filter (fun v => decide (0 < v)) = [] := by
    rw [hv]
    simp
  have he : diagonal_mean_std M8c
      = .error "ValueError: zero-size array to reduction operation minimum which has no identity" := by
    unfold diagonal_mean_std
    rw [hf]
  constructor
  · rw [he]
    rfl
  · unfold normalize_matrix
    rw [if_neg (by decide), if_neg (by decide), if_pos rfl, he]
    rfl

/-- Claim C8, amended: whenever at least one diagonal of the matrix has
positive spread, `diagonal_mean_std` succeeds and the returned std
vector contains no zeros — every zero std has been replaced by the
minimum positive std (fetch.py lines 95-96); when every diagonal has
zero spread the code instead raises `ValueError` (see the
counterexample). -/
theorem claim8_std_replacement (M : PyMat) (h : ∃ v ∈ diagonalVars M, 0 < v) :
    (diagonal_mean_std M).isOk = true ∧
    (0 : ℚ) ∉ stdsOf (diagonal_mean_std M) := by
  obtain ⟨v, hv, hvpos⟩ := h
  have hmem : v ∈ (diagonalVars M).filter (fun v => decide (0 < v)) :=
    List.mem_filter.mpr ⟨hv, by simpa⟩
  unfold diagonal_mean_std
  cases hf : (diagonalVars M).filter (fun v => decide (0 < v)) with
  | nil =>
    rw [hf] at hmem
    cases hmem
  | cons a t =>
    refine ⟨rfl, ?_⟩
    intro hmem0
    simp only [stdsOf] at hmem0
    obtain ⟨u, hu, hfu⟩ := List.mem_map.mp hmem0
    have hall : ∀ x ∈ a :: t, 0 < x := by
      intro x hx
      have hx2 : x ∈ (diagonalVars M).filter (fun v => decide (0 < v)) := by
        rw [hf]; exact hx
      simpa using (List.mem_filter.mp hx2).2
    by_cases hu0 : u = 0
    · rw [if_pos hu0] at hfu
      have hpos : 0 < listMinQ a t :=
        foldl_min_pos t a (hall a (List.mem_cons_self a t))
          (fun x hx => hall x (List.mem_cons_of_mem a hx))
      exact hpos.ne' hfu
    · rw [if_neg hu0] at hfu
      exact hu0 hfu

/-- Witness for `claim8_std_replacement` on a 2x2 matrix whose main
diagonal is `[1, 3]` (variance 1) while the offset-1 diagonal is the
single entry `[9]` (variance 0, replaced). -/
theorem claim8_std_replacement_w :
    (∃ v ∈ diagonalVars M8w, 0 < v) ∧
    (diagonal_mean_std M8w).isOk = true ∧
    (0 : ℚ) ∉ stdsOf (diagonal_mean_std M8w) := by
  have hv : diagonalVars M8w = [1, 0] := by
    norm_num [diagonalVars, diagonalVar, diagEntries, M8w, List.range_succ]
  have h : ∃ v ∈ diagonalVars M8w, 0 < v := by
    rw [hv]
    exact ⟨1, by simp, by norm_num⟩
  exact ⟨h, (claim8_std_replacement M8w h).1, (claim8_std_replacement M8w h).2⟩

/-- Claim C9, counterexample: the unknown normalize mode `bogus` and the
unknown transform mode `pow3` do not raise anything — both stages
silently return their input unchanged. -/
theorem claim9_unknown_mode_cex :
    normalize_matrix "bogus" M9c = .ok M9c ∧
    transform_matrix "pow3" M9cR = M9cR := by
  constructor
  · rfl
  · unfold transform_matrix
    rw [if_neg (by decide), if_neg (by decide), if_neg (by decide)]

/-- Claim C9, amended: a `normalize` value that is none of `total`,
`expect`, `zscore` and does not match the `hiccups` regex, and a
`transform` value that is none of `log10`, `log2`, `log`, are silently
ignored: the matrix is returned unchanged and no exception is raised
(the dispatch chains of fetch.py lines 112-148 and 150-157 have no
else-branch). -/
theorem claim9_unknown_mode_silent (s t : String) (M : PyMat) (MR : PyMatR)
    (h1 : s ≠ "total") (h2 : s ≠ "expect") (h3 : s ≠ "zscore")
    (h4 : hiccupsRegexMatch s = false)
    (g1 : t ≠ "log10") (g2 : t ≠ "log2") (g3 : t ≠ "log") :
    normalize_matrix s M = .ok M ∧ transform_matrix t MR = MR := by
  constructor
  · unfold normalize_matrix
    rw [if_neg h1, if_neg h2, if_neg h3, if_neg (by simp [h4])]
  · unfold transform_matrix
    rw [if_neg g1, if_neg g2, if_neg g3]

/-- Witness for `claim9_unknown_mode_silent` at the unknown modes `foo`
and `bar`. -/
theorem claim9_unknown_mode_silent_w :
    hiccupsRegexMatch "foo" = false ∧
    normalize_matrix "foo" M9c = .ok M9c ∧
    transform_matrix "bar" M9cR = M9cR :=
  ⟨rfl,
   (claim9_unknown_mode_silent "foo" "bar" M9c M9cR (by decide) (by decide) (by decide)
      rfl (by decide) (by decide) (by decide)).1,
   (claim9_unknown_mode_silent "foo" "bar" M9c M9cR (by decide) (by decide) (by decide)
      rfl (by decide) (by decide) (by decide)).2⟩

/-- Claim C10: querying a chromosome name that is a key of the index
neither verbatim nor after chromosome-name conversion raises `KeyError`
(the plain dictionary indexing of hicpeaks.py line 86) instead of
returning an empty sequence. -/
theorem claim10_missing_chrom_keyerror (t : LoopTree) (c : String) (qs qe : ℤ)
    (h1 : tree_lookup t c = none)
    (h2 : tree_lookup t (change_chrom_names c) = none) :
    query_loops t c qs qe = .error "KeyError" := by
  simp [query_loops, h1, h2]

/-- Witness for `claim10_missing_chrom_keyerror`: an index holding only
`chr1`, queried with `chr9` (converted name `9`, also absent). -/
theorem claim10_missing_chrom_keyerror_w :
    tree_lookup T10w "chr9" = none ∧
    query_loops T10w "chr9" 0 100 = .error "KeyError" :=
  ⟨rfl, claim10_missing_chrom_keyerror T10w "chr9" 0 100 rfl rfl⟩
